import Mathlib

/-!
Shallow embedding of `irc_test_runner.py` (ft_irc test orchestrator).

The embedding follows the Python source function by function:

* `parse_valgrind_log` models the regex-based counter extraction, including
  Python `re.search` first-match semantics for the six fixed patterns and the
  exact behaviour of Python `int()` on the captured group (which rejects
  thousands-separator commas, raising `ValueError`, modelled as `Except.error`).
* `wait_for_listen` models the readiness polling loop with an abstract integer
  clock: each failed connection attempt advances the clock by at least one
  tick (the mandatory `time.sleep(0.05)`), plus an arbitrary attempt cost.
* `Runner.stop_server`, `Runner.start_server`, `Runner.run_tester`,
  `Runner.summarize_valgrind` and `Runner.run` are modelled with explicit
  state (`RState`) and oracles (`StopEnv`, `StartEnv`, `Env`) standing for the
  OS effects: which signals get delivered, whether the binary/valgrind/tester
  exist, the tester exit code, and so on.  An event trace records the
  observable effects (spawn with a concrete command line, stop invocation,
  SIGINT/SIGKILL delivery to the process group).  Pretty-printing itself is
  pure and elided, but the `summarize_valgrind` call inside `_print_summary`
  (line 439) — the one raising operation of the summary step, reached at line
  414 before `run` returns — is modelled by `summary_step`, and `main`'s
  exception handlers (every escaping exception becomes process exit 1) by
  `main_exit`.
-/

namespace IrcRunner

/-! ## Diagnostic report parser (`parse_valgrind_log`)

Python patterns, from the source:
  "definitely lost: *([0-9,]+) bytes"
  "indirectly lost: *([0-9,]+) bytes"
  "possibly lost: *([0-9,]+) bytes"
  "still reachable: *([0-9,]+) bytes"
  "Open file descriptor.*: *([0-9]+)"
  "ERROR SUMMARY: *([0-9,]+) errors"

For the first five-shaped patterns (literal, then zero or more spaces, then a
greedy character-class group, then a literal tail) the match at a given start
position is deterministic: the space run and the class run are maximal, since
neither a space nor the tail head belongs to the class, so backtracking can
never produce a different group.  `re.search` then takes the leftmost start
position admitting a match.  The fd pattern has a greedy dot-star bounded by
the line end; the rightmost in-line position where ": *[0-9]+" matches wins. -/

def isDigitComma (c : Char) : Bool := c.isDigit || c = ','

/-- Match a "literal, spaces, class-run, tail" pattern at the start of `cs`,
returning the captured group. -/
def matchCounterAt (lit tail : List Char) (cls : Char → Bool) (cs : List Char) :
    Option (List Char) :=
  if lit.isPrefixOf cs then
    let afterSpaces := (cs.drop lit.length).dropWhile (fun c => c = ' ')
    let run := afterSpaces.takeWhile cls
    if run.isEmpty then none
    else if tail.isPrefixOf (afterSpaces.drop run.length) then some run
    else none
  else none

/-- `re.search` for a counter pattern: leftmost start position wins. -/
def searchCounter (lit tail : List Char) (cls : Char → Bool) :
    List Char → Option (List Char)
  | [] => matchCounterAt lit tail cls []
  | c :: cs =>
    match matchCounterAt lit tail cls (c :: cs) with
    | some r => some r
    | none => searchCounter lit tail cls cs

/-- The ": *([0-9]+)" part of the fd pattern, tried at one position. -/
def matchFdColon (cs : List Char) : Option (List Char) :=
  match cs with
  | ':' :: rest =>
    let afterSpaces := rest.dropWhile (fun c => c = ' ')
    let run := afterSpaces.takeWhile Char.isDigit
    if run.isEmpty then none else some run
  | _ => none

/-- Greedy ".*" backtracking: try offsets `j, j-1, ..., 0` into `tl`. -/
def fdScan (tl : List Char) : Nat → Option (List Char)
  | 0 => matchFdColon tl
  | Nat.succ j =>
    match matchFdColon (tl.drop (Nat.succ j)) with
    | some r => some r
    | none => fdScan tl j

def fdLit : List Char := "Open file descriptor".data

/-- Match "Open file descriptor.*: *([0-9]+)" at the start of `cs`.  The
dot-star cannot cross a newline, so offsets range over the current line. -/
def matchFdAt (cs : List Char) : Option (List Char) :=
  if fdLit.isPrefixOf cs then
    let tl := cs.drop fdLit.length
    fdScan tl (tl.takeWhile (fun c => c ≠ '\n')).length
  else none

def searchFd : List Char → Option (List Char)
  | [] => matchFdAt []
  | c :: cs =>
    match matchFdAt (c :: cs) with
    | some r => some r
    | none => searchFd cs

/-- Python `int(s)` on a string drawn from `[0-9,]+`: succeeds exactly when
every character is a digit (a thousands-separator comma raises `ValueError`). -/
def pyInt (s : List Char) : Except String Nat :=
  if s ≠ [] && s.all Char.isDigit then
    Except.ok (s.foldl (fun n c => n * 10 + (c.toNat - 48)) 0)
  else Except.error "ValueError: invalid literal for int"

/-- `get(pattern) or 0` from the source: an absent pattern yields 0; a matched
group goes through `int`. -/
def getOr0 (r : Option (List Char)) : Except String Nat :=
  match r with
  | none => Except.ok 0
  | some run => pyInt run

def dlLit : List Char := "definitely lost:".data
def ilLit : List Char := "indirectly lost:".data
def plLit : List Char := "possibly lost:".data
def srLit : List Char := "still reachable:".data
def esLit : List Char := "ERROR SUMMARY:".data
def bytesTail : List Char := " bytes".data
def errorsTail : List Char := " errors".data

structure ValReport where
  definitely_lost : Nat
  indirectly_lost : Nat
  possibly_lost : Nat
  still_reachable : Nat
  open_fds : Nat
  errors : Nat
deriving DecidableEq, Repr

/-- `parse_valgrind_log(text)`: builds the summary dict, evaluating the six
`get(...) or 0` expressions in the source's literal order; any `ValueError`
from `int` propagates. -/
def parse_valgrind_log (text : String) : Except String ValReport :=
  Except.bind (getOr0 (searchCounter dlLit bytesTail isDigitComma text.data))
    fun dl =>
  Except.bind (getOr0 (searchCounter ilLit bytesTail isDigitComma text.data))
    fun il =>
  Except.bind (getOr0 (searchCounter plLit bytesTail isDigitComma text.data))
    fun pl =>
  Except.bind (getOr0 (searchCounter srLit bytesTail isDigitComma text.data))
    fun sr =>
  Except.bind (getOr0 (searchFd text.data))
    fun fd =>
  Except.bind (getOr0 (searchCounter esLit errorsTail isDigitComma text.data))
    fun es =>
  Except.ok ⟨dl, il, pl, sr, fd, es⟩

/-! ## Readiness prober (`wait_for_listen`)

The Python loop reads the wall clock; we model time as abstract integer ticks.
`connectOk t` says whether a connect attempt started at tick `t` succeeds
(immediately).  A failed attempt costs `failCost t` ticks (the bounded connect
attempt) plus one mandatory tick (the `time.sleep(0.05)`), so the clock
strictly advances and the loop terminates.  The returned pair also exposes the
clock value at the moment of return, so that the timing contract is statable. -/

def wait_for_listen_aux (connectOk : Nat → Bool) (failCost : Nat → Nat)
    (deadline : Nat) (now : Nat) : Bool × Nat :=
  if now < deadline then
    if connectOk now then (true, now)
    else wait_for_listen_aux connectOk failCost deadline (now + failCost now + 1)
  else (false, now)
termination_by deadline - now
decreasing_by omega

/-- `wait_for_listen(port, timeout)`: deadline is start time plus timeout. -/
def wait_for_listen (connectOk : Nat → Bool) (failCost : Nat → Nat)
    (start timeout : Nat) : Bool :=
  (wait_for_listen_aux connectOk failCost (start + timeout) start).1

/-! ## Runner state and process supervision -/

/-- Observable events of a session: a spawn with its concrete command line, an
invocation of `stop_server`, and signal deliveries to the process group. -/
inductive Ev where
  | spawned (cmd : List String)
  | stopCalled
  | sigint
  | sigkill
deriving DecidableEq, Repr

/-- The mutable `Runner` state the claims depend on: the server process handle
(`self.server_proc`) plus the instrumentation trace. -/
structure RState where
  server_proc : Option Unit
  events : List Ev
deriving DecidableEq, Repr

/-- OS oracle for the `stop_server` signal-and-wait sequence. -/
structure StopEnv where
  /-- `os.getpgid`/`os.killpg(SIGINT)` raises (process already gone). -/
  sigintRaises : Bool
  /-- the first `wait(timeout=2)` returns within the grace period. -/
  gracefulExit : Bool
  /-- the second `os.killpg(SIGKILL)` raises. -/
  sigkillRaises : Bool
  /-- the final `wait(timeout=2)` raises `TimeoutExpired`. -/
  killWaitRaises : Bool
deriving DecidableEq, Repr

/-- Outcome of the `try` block of `stop_server`: signals actually delivered to
the process group, and whether an exception was raised (to be swallowed). -/
def stop_try (os : StopEnv) : List Ev × Bool :=
  if os.sigintRaises then ([], true)
  else if os.gracefulExit then ([Ev.sigint], false)
  else if os.sigkillRaises then ([Ev.sigint], true)
  else ([Ev.sigint, Ev.sigkill], os.killWaitRaises)

/-- `Runner.stop_server`: early return when no handle is live; otherwise run
the two-phase signal sequence, swallow any exception, and always clear the
handle in the `finally` block.  Total: no error can escape. -/
def stop_server (os : StopEnv) (s : RState) : RState :=
  match s.server_proc with
  | none => { s with events := s.events ++ [Ev.stopCalled] }
  | some _ =>
    { server_proc := none
      events := s.events ++ [Ev.stopCalled] ++ (stop_try os).1 }

/-- Configuration and OS oracle for `Runner.start_server`. -/
structure StartEnv where
  /-- `bin_path.exists()` -/
  binaryExists : Bool
  /-- `self.args.valgrind` -/
  valgrind : Bool
  /-- the `valgrind --version` probe succeeds -/
  valgrindOk : Bool
  /-- `subprocess.Popen` itself raises -/
  popenRaises : Bool
  binPath : String
  password : String
  port : Nat
  /-- per-run valgrind log path (timestamp-derived in the source) -/
  vgLogPath : String
deriving DecidableEq, Repr

inductive StartErr where
  | binaryNotFound
  | valgrindNotAvailable
  | spawnFailed
deriving DecidableEq, Repr

/-- `default_valgrind_cmd()` from the source. -/
def default_valgrind_cmd : List String :=
  ["valgrind", "-s", "--trace-children=no", "--leak-check=full",
   "--show-leak-kinds=all", "--track-origins=yes", "--track-fds=yes",
   "--error-limit=no"]

/-- `cmd = vg_prefix + server_cmd` as built in `start_server`. -/
def start_cmd (e : StartEnv) : List String :=
  (if e.valgrind then default_valgrind_cmd ++ ["--log-file=" ++ e.vgLogPath]
   else [])
    ++ [e.binPath, toString e.port, e.password]

/-- `Runner.start_server`: validate the binary path, then (in valgrind mode)
probe the tool, then spawn the process group.  All raise points precede the
assignment of `self.server_proc`, so an error leaves the state untouched. -/
def start_server (e : StartEnv) (s : RState) : Except StartErr RState :=
  if !e.binaryExists then Except.error StartErr.binaryNotFound
  else if e.valgrind && !e.valgrindOk then
    Except.error StartErr.valgrindNotAvailable
  else if e.popenRaises then Except.error StartErr.spawnFailed
  else Except.ok
    { server_proc := some ()
      events := s.events ++ [Ev.spawned (start_cmd e)] }

/-! ## Valgrind summary resolution (`Runner.summarize_valgrind`) -/

/-- Flat model of the output directory: filename/content pairs. -/
structure FS where
  files : List (String × String)

def fsExists (fs : FS) (name : String) : Bool :=
  fs.files.any (fun p => p.1 = name)

def fsRead (fs : FS) (name : String) : String :=
  (((fs.files.find? (fun p => p.1 = name)).map Prod.snd).getD "")

/-- A filename matches the glob `valgrind*.log` iff it starts with "valgrind",
ends with ".log" and is long enough for the two to not overlap. -/
def vgGlobMatch (name : String) : Bool :=
  "valgrind".data.isPrefixOf name.data && ".log".data.isSuffixOf name.data
    && 12 ≤ name.length

/-- Lexicographic strict order on character lists (Python sorts the glob
results; for files of one directory this is filename order). -/
def lexLt : List Char → List Char → Bool
  | [], [] => false
  | [], _ :: _ => true
  | _ :: _, [] => false
  | a :: as, b :: bs => if a < b then true else if b < a then false else lexLt as bs

def insSorted (x : String) : List String → List String
  | [] => [x]
  | y :: ys => if lexLt y.data x.data then y :: insSorted x ys else x :: y :: ys

def sortNames : List String → List String
  | [] => []
  | x :: xs => insSorted x (sortNames xs)

/-- The candidates of the fallback scan: `sorted(outdir.glob("valgrind*.log"))`. -/
def vgCandidates (fs : FS) : List String :=
  sortNames ((fs.files.map Prod.fst).filter vgGlobMatch)

/-- `Runner.summarize_valgrind`: `None` when diagnostics were not requested;
else parse the expected log if it exists; else parse the first glob candidate;
else `None`.  The `for ...: return` in the source returns on the first
iteration unconditionally. -/
def summarize_valgrind (vg : Bool) (lf : Option String) (fs : FS) :
    Option (Except String ValReport) :=
  if !vg then none
  else
    match lf with
    | some f =>
      if fsExists fs f then some (parse_valgrind_log (fsRead fs f))
      else
        match vgCandidates fs with
        | [] => none
        | n :: _ => some (parse_valgrind_log (fsRead fs n))
    | none =>
      match vgCandidates fs with
      | [] => none
      | n :: _ => some (parse_valgrind_log (fsRead fs n))

/-! ## Session orchestration (`Runner.run`) -/

/-- Oracle for a whole session. -/
structure Env where
  startEnv : StartEnv
  /-- readiness oracle fed to `wait_for_listen` -/
  connectOk : Nat → Bool
  failCost : Nat → Nat
  startTime : Nat
  timeout : Nat
  /-- the selected tester script path exists (`tester_path`) -/
  testerExists : Bool
  /-- `run_tester` raises for some other reason after the path check -/
  testerRaises : Bool
  /-- the tester subprocess exit code when it runs -/
  testerRc : Int
  stopEnv : StopEnv
  /-- `self.valgrind_log_file` at summary time (set by a valgrind-mode start) -/
  valgrindLog : Option String
  /-- the output directory contents at summary time -/
  outFS : FS

/-- `Runner.run_tester` (via `tester_path`): raises when the tester script is
missing, may raise from the subprocess machinery, otherwise returns the
tester's exit code. -/
def run_tester (env : Env) : Except Unit Int :=
  if !env.testerExists then Except.error ()
  else if env.testerRaises then Except.error ()
  else Except.ok env.testerRc

/-- The client exit code recorded by `run`: initialised to the sentinel 99,
overwritten on a normal tester return, left at 99 when `run_tester` raises
(the exception is caught and only printed). -/
def session_rc (env : Env) : Int :=
  match run_tester env with
  | Except.ok rc => rc
  | Except.error _ => 99

/-- Readiness result of the session, `wait_for_listen(port, timeout)`. -/
def listen_ok (env : Env) : Bool :=
  wait_for_listen env.connectOk env.failCost env.startTime env.timeout

/-- The `_print_summary(rc)` call at line 414: its printing is pure, but the
`summarize_valgrind` call inside it (line 439) parses the diagnostic log, and
a `ValueError` from `parse_valgrind_log` propagates out. -/
def summary_step (env : Env) : Except String Unit :=
  match summarize_valgrind env.startEnv.valgrind env.valgrindLog env.outFS with
  | some (Except.error e) => Except.error e
  | _ => Except.ok ()

/-- `Runner.run`: start the server (returning 2 on any start exception,
without calling stop); wait for readiness (stopping the server and returning
2 on timeout); run the tester with the exception caught; stop the server in
the `finally` block; then call `_print_summary(rc)` — whose diagnostic parse
may raise, escaping `run` (first component `Except.error`) — and finally
return 0 iff the tester exit code was 0, else 1.  The second component is the
runner state when `run` returns or when the exception escapes. -/
def run (env : Env) (s : RState) : Except String Int × RState :=
  match start_server env.startEnv s with
  | Except.error _ => (Except.ok 2, s)
  | Except.ok s1 =>
    if !listen_ok env then (Except.ok 2, stop_server env.stopEnv s1)
    else
      match summary_step env with
      | Except.error e => (Except.error e, stop_server env.stopEnv s1)
      | Except.ok _ =>
        (Except.ok (if session_rc env = 0 then 0 else 1),
         stop_server env.stopEnv s1)

/-- `main` (lines 647-663): a normal `run` return value feeds `sys.exit(rc)`;
any exception escaping `run` is caught (by the `FileNotFoundError` handler or
the generic one) and the process exits 1. -/
def main_exit (env : Env) (s : RState) : Int :=
  match (run env s).1 with
  | Except.ok rc => rc
  | Except.error _ => 1

/-- `true` on `Except.ok`, `false` on `Except.error`. -/
def isOkE {ε α : Type} : Except ε α → Bool
  | Except.ok _ => true
  | Except.error _ => false

/-! ## Theorems -/

theorem getOr0_none : getOr0 none = Except.ok 0 := rfl

/-- When `parse_valgrind_log` returns a report, each field is the value the
corresponding `get(...) or 0` produced. -/
theorem parse_ok_fields (t : String) (r : ValReport)
    (h : parse_valgrind_log t = Except.ok r) :
    getOr0 (searchCounter dlLit bytesTail isDigitComma t.data)
        = Except.ok r.definitely_lost ∧
    getOr0 (searchCounter ilLit bytesTail isDigitComma t.data)
        = Except.ok r.indirectly_lost ∧
    getOr0 (searchCounter plLit bytesTail isDigitComma t.data)
        = Except.ok r.possibly_lost ∧
    getOr0 (searchCounter srLit bytesTail isDigitComma t.data)
        = Except.ok r.still_reachable ∧
    getOr0 (searchFd t.data) = Except.ok r.open_fds ∧
    getOr0 (searchCounter esLit errorsTail isDigitComma t.data)
        = Except.ok r.errors := by
  unfold parse_valgrind_log at h
  cases h1 : getOr0 (searchCounter dlLit bytesTail isDigitComma t.data) with
  | error a => rw [h1] at h; simp [Except.bind] at h
  | ok dl =>
  rw [h1] at h
  cases h2 : getOr0 (searchCounter ilLit bytesTail isDigitComma t.data) with
  | error a => rw [h2] at h; simp [Except.bind] at h
  | ok il =>
  rw [h2] at h
  cases h3 : getOr0 (searchCounter plLit bytesTail isDigitComma t.data) with
  | error a => rw [h3] at h; simp [Except.bind] at h
  | ok pl =>
  rw [h3] at h
  cases h4 : getOr0 (searchCounter srLit bytesTail isDigitComma t.data) with
  | error a => rw [h4] at h; simp [Except.bind] at h
  | ok sr =>
  rw [h4] at h
  cases h5 : getOr0 (searchFd t.data) with
  | error a => rw [h5] at h; simp [Except.bind] at h
  | ok fd =>
  rw [h5] at h
  cases h6 : getOr0 (searchCounter esLit errorsTail isDigitComma t.data) with
  | error a => rw [h6] at h; simp [Except.bind] at h
  | ok es =>
  rw [h6] at h
  simp [Except.bind] at h
  subst h
  exact ⟨rfl, rfl, rfl, rfl, rfl, rfl⟩

/-- C3: the round-trip claim fails on the code.  On the synthetic report text
containing "definitely lost: 1,024 bytes" and "ERROR SUMMARY: 3 errors", the
regex captures the comma-grouped "1,024" but Python `int()` rejects the comma,
so `parse_valgrind_log` raises `ValueError` instead of returning the mapping
with `definitely_lost = 1024`. -/
theorem parse_comma_input_raises :
    parse_valgrind_log "definitely lost: 1,024 bytes\nERROR SUMMARY: 3 errors\n"
      = Except.error "ValueError: invalid literal for int" ∧
    searchCounter dlLit bytesTail isDigitComma
        ("definitely lost: 1,024 bytes\nERROR SUMMARY: 3 errors\n".data)
      = some ("1,024".data) := ⟨rfl, rfl⟩

/-- C4: the diagnostic report parser is a pure deterministic function —
parsing the same text twice yields the same result — and for every counter
whose pattern does not occur in the text, the returned report (when one is
returned) carries exactly zero for that counter. -/
theorem parse_valgrind_log_pure_absent_zero (t : String) :
    parse_valgrind_log t = parse_valgrind_log t ∧
    ∀ r, parse_valgrind_log t = Except.ok r →
      (searchCounter dlLit bytesTail isDigitComma t.data = none →
        r.definitely_lost = 0) ∧
      (searchCounter ilLit bytesTail isDigitComma t.data = none →
        r.indirectly_lost = 0) ∧
      (searchCounter plLit bytesTail isDigitComma t.data = none →
        r.possibly_lost = 0) ∧
      (searchCounter srLit bytesTail isDigitComma t.data = none →
        r.still_reachable = 0) ∧
      (searchFd t.data = none → r.open_fds = 0) ∧
      (searchCounter esLit errorsTail isDigitComma t.data = none →
        r.errors = 0) := by
  refine ⟨rfl, ?_⟩
  intro r h
  obtain ⟨e1, e2, e3, e4, e5, e6⟩ := parse_ok_fields t r h
  refine ⟨?_, ?_, ?_, ?_, ?_, ?_⟩ <;> intro ha
  · rw [ha, getOr0_none] at e1; exact ((Except.ok.injEq _ _).mp e1).symm
  · rw [ha, getOr0_none] at e2; exact ((Except.ok.injEq _ _).mp e2).symm
  · rw [ha, getOr0_none] at e3; exact ((Except.ok.injEq _ _).mp e3).symm
  · rw [ha, getOr0_none] at e4; exact ((Except.ok.injEq _ _).mp e4).symm
  · rw [ha, getOr0_none] at e5; exact ((Except.ok.injEq _ _).mp e5).symm
  · rw [ha, getOr0_none] at e6; exact ((Except.ok.injEq _ _).mp e6).symm

/-- Witness for C4 at a concrete text in which the definitely-lost pattern is
absent: the parsed report carries zero for that counter. -/
theorem parse_valgrind_log_pure_absent_zero_witness :
    (ValReport.mk 0 0 0 0 0 3).definitely_lost = 0 :=
  (((parse_valgrind_log_pure_absent_zero "ERROR SUMMARY: 3 errors").2
      (ValReport.mk 0 0 0 0 0 3) rfl).1) rfl

/-- One-step unfolding of the polling loop. -/
theorem wait_aux_unfold (c : Nat → Bool) (f : Nat → Nat) (d n : Nat) :
    wait_for_listen_aux c f d n =
      if n < d then
        (if c n then (true, n)
         else wait_for_listen_aux c f d (n + f n + 1))
      else (false, n) := by
  rw [wait_for_listen_aux]

/-- A `true` result certifies a successful connect attempt before the
deadline. -/
theorem wait_aux_true_mem (c : Nat → Bool) (f : Nat → Nat) :
    ∀ k d n, d - n ≤ k → (wait_for_listen_aux c f d n).1 = true →
      ∃ u, n ≤ u ∧ u < d ∧ c u = true := by
  intro k
  induction k with
  | zero =>
    intro d n hk h
    rw [wait_aux_unfold] at h
    have hnd : ¬ n < d := by omega
    simp [hnd] at h
  | succ k ih =>
    intro d n hk h
    rw [wait_aux_unfold] at h
    by_cases hnd : n < d
    · by_cases hc : c n = true
      · exact ⟨n, le_refl n, hnd, hc⟩
      · simp [hnd, hc] at h
        obtain ⟨u, h1, h2, h3⟩ := ih d (n + f n + 1) (by omega) h
        exact ⟨u, by omega, h2, h3⟩
    · simp [hnd] at h

/-- If no attempt in the window can succeed, the loop returns `false`. -/
theorem wait_aux_false_of_never (c : Nat → Bool) (f : Nat → Nat) :
    ∀ k d n, d - n ≤ k → (∀ u, n ≤ u → u < d → c u = false) →
      (wait_for_listen_aux c f d n).1 = false := by
  intro k
  induction k with
  | zero =>
    intro d n hk hnever
    rw [wait_aux_unfold]
    have hnd : ¬ n < d := by omega
    simp [hnd]
  | succ k ih =>
    intro d n hk hnever
    rw [wait_aux_unfold]
    by_cases hnd : n < d
    · have hc : c n = false := hnever n (le_refl n) hnd
      simp [hnd, hc]
      exact ih d (n + f n + 1) (by omega) (fun u h1 h2 => hnever u (by omega) h2)
    · simp [hnd]

/-- A `false` result is only returned once the clock has passed the
deadline. -/
theorem wait_aux_false_time (c : Nat → Bool) (f : Nat → Nat) :
    ∀ k d n, d - n ≤ k → (wait_for_listen_aux c f d n).1 = false →
      d ≤ (wait_for_listen_aux c f d n).2 := by
  intro k
  induction k with
  | zero =>
    intro d n hk _
    rw [wait_aux_unfold]
    have hnd : ¬ n < d := by omega
    simp [hnd]
    omega
  | succ k ih =>
    intro d n hk h
    rw [wait_aux_unfold] at h ⊢
    by_cases hnd : n < d
    · by_cases hc : c n = true
      · simp [hnd, hc] at h
      · simp [hnd, hc] at h ⊢
        exact ih d (n + f n + 1) (by omega) h
    · simp [hnd]
      omega

/-- C5: the readiness prober `wait_for_listen` returns `true` exactly by
finding a connect attempt that succeeds before the deadline; if no attempt in
the window can succeed it returns `false`, and a `false` return happens only
once the clock has reached `start + timeout`.  The outcome is a `Bool`: no
partial-success state exists. -/
theorem wait_for_listen_contract (c : Nat → Bool) (f : Nat → Nat)
    (t0 T : Nat) :
    (wait_for_listen c f t0 T = true →
      ∃ u, t0 ≤ u ∧ u < t0 + T ∧ c u = true) ∧
    ((∀ u, t0 ≤ u → u < t0 + T → c u = false) →
      wait_for_listen c f t0 T = false) ∧
    ((wait_for_listen_aux c f (t0 + T) t0).1 = false →
      t0 + T ≤ (wait_for_listen_aux c f (t0 + T) t0).2) := by
  refine ⟨?_, ?_, ?_⟩
  · exact fun h => wait_aux_true_mem c f (t0 + T - t0) (t0 + T) t0 (by omega) h
  · exact fun h => wait_aux_false_of_never c f (t0 + T - t0) (t0 + T) t0
      (by omega) h
  · exact fun h => wait_aux_false_time c f (t0 + T - t0) (t0 + T) t0
      (by omega) h

/-- Witness for C5: a listener reachable from tick 2 is detected before the
deadline; a never-opening listener yields `false`, with the exit clock past
the deadline. -/
theorem wait_for_listen_contract_witness :
    (∃ u, 0 ≤ u ∧ u < 0 + 5 ∧ (fun _ => true) u = true) ∧
    wait_for_listen (fun _ => false) (fun _ => 0) 0 1 = false ∧
    0 + 1 ≤ (wait_for_listen_aux (fun _ => false) (fun _ => 0) (0 + 1) 0).2 := by
  have h1 := (wait_for_listen_contract (fun _ => true) (fun _ => 0) 0 5).1
  have h2 := (wait_for_listen_contract (fun _ => false) (fun _ => 0) 0 1).2.1
  have h3 := (wait_for_listen_contract (fun _ => false) (fun _ => 0) 0 1).2.2
  refine ⟨h1 ?_, h2 ?_, h3 ?_⟩
  · show (wait_for_listen_aux (fun _ => true) (fun _ => 0) (0 + 5) 0).1 = true
    rw [wait_aux_unfold]
    norm_num
  · intro u _ _
    rfl
  · show (wait_for_listen_aux (fun _ => false) (fun _ => 0) (0 + 1) 0).1 = false
    rw [wait_aux_unfold]
    norm_num
    rw [wait_aux_unfold]
    norm_num

/-! ### Shared facts about the supervisor -/

/-- `stop_server` always leaves the runner without a live handle. -/
theorem stop_server_proc (os : StopEnv) (s : RState) :
    (stop_server os s).server_proc = none := by
  rcases s with ⟨sp, evs⟩
  cases sp <;> simp [stop_server]

/-- Every invocation of `stop_server` is recorded. -/
theorem stop_server_called (os : StopEnv) (s : RState) :
    Ev.stopCalled ∈ (stop_server os s).events := by
  rcases s with ⟨sp, evs⟩
  cases sp <;> simp [stop_server]

/-- With no live handle, `stop_server` returns at once with no signal. -/
theorem stop_server_on_none (os : StopEnv) (s : RState)
    (h : s.server_proc = none) :
    stop_server os s = { s with events := s.events ++ [Ev.stopCalled] } := by
  rcases s with ⟨sp, evs⟩
  cases sp
  · rfl
  · simp at h

/-- A successful `start_server` yields exactly the spawned-process state. -/
theorem start_server_ok_shape (e : StartEnv) (s : RState) (s1 : RState)
    (h : start_server e s = Except.ok s1) :
    s1 = { server_proc := some ()
           events := s.events ++ [Ev.spawned (start_cmd e)] } := by
  unfold start_server at h
  by_cases h1 : e.binaryExists = true
  · by_cases h2 : e.valgrind && !e.valgrindOk
    · simp [h1, h2] at h
    · by_cases h3 : e.popenRaises
      · simp [h1, h2, h3] at h
      · simp [h1, h2, h3] at h
        exact h.symm
  · rw [Bool.not_eq_true] at h1
    simp [h1] at h

/-- On a start error, `run` returns 2 with the state untouched. -/
theorem run_err_eq (env : Env) (s : RState) (e : StartErr)
    (hst : start_server env.startEnv s = Except.error e) :
    run env s = (Except.ok 2, s) := by
  unfold run
  rw [hst]

/-- After a successful start, `run` reduces to the readiness branch. -/
theorem run_ok_eq (env : Env) (s : RState) (s1 : RState)
    (hst : start_server env.startEnv s = Except.ok s1) :
    run env s =
      if !listen_ok env then
        ((Except.ok 2 : Except String Int), stop_server env.stopEnv s1)
      else
        match summary_step env with
        | Except.error e => (Except.error e, stop_server env.stopEnv s1)
        | Except.ok _ =>
          (Except.ok (if session_rc env = 0 then 0 else 1),
           stop_server env.stopEnv s1) := by
  unfold run
  rw [hst]

/-! ### Concrete example inputs (used by the witnesses) -/

def rinit : RState := { server_proc := none, events := [] }

def egStop : StopEnv :=
  { sigintRaises := false, gracefulExit := true, sigkillRaises := false,
    killWaitRaises := false }

def egStart : StartEnv :=
  { binaryExists := true, valgrind := false, valgrindOk := false,
    popenRaises := false, binPath := "./ircserv", password := "pass",
    port := 6667, vgLogPath := "out/valgrind.1700000000.log" }

def egEnv : Env :=
  { startEnv := egStart, connectOk := fun _ => true, failCost := fun _ => 0,
    startTime := 0, timeout := 15, testerExists := true,
    testerRaises := false, testerRc := 0, stopEnv := egStop,
    valgrindLog := none, outFS := ⟨[]⟩ }

def envNoBin : Env := { egEnv with startEnv := { egStart with binaryExists := false } }

def envNoTester : Env := { egEnv with testerExists := false }

def eVgBad : StartEnv := { egStart with valgrind := true, valgrindOk := false }

def eVgOk : StartEnv := { egStart with valgrind := true, valgrindOk := true }

/-- A session in valgrind mode whose per-run log holds a thousands-separated
leak count — exactly the report shape real valgrind emits. -/
def envVgComma : Env :=
  { egEnv with
    startEnv := eVgOk
    valgrindLog := some "valgrind.1700000000.log"
    outFS := ⟨[("valgrind.1700000000.log",
                "definitely lost: 1,024 bytes\nERROR SUMMARY: 3 errors\n")]⟩ }

/-- C6: `stop_server` is idempotent and never raises.  With no live handle it
is a no-op except for the invocation record, delivering no signal; for every
OS oracle — including those in which `killpg`/`wait` raise, which the
function swallows — it returns normally with the handle cleared; and a second
call in succession adds only its invocation record, never a second signal. -/
theorem stop_server_contract (os os2 : StopEnv) (s : RState) :
    (s.server_proc = none →
      stop_server os s = { s with events := s.events ++ [Ev.stopCalled] }) ∧
    (stop_server os s).server_proc = none ∧
    (stop_server os2 (stop_server os s)).events
      = (stop_server os s).events ++ [Ev.stopCalled] := by
  refine ⟨stop_server_on_none os s, stop_server_proc os s, ?_⟩
  have h := stop_server_on_none os2 (stop_server os s) (stop_server_proc os s)
  rw [h]

/-- Witness for C6 at a fresh runner state: stopping with no live process
appends only the invocation record. -/
theorem stop_server_contract_witness :
    stop_server egStop rinit
      = { server_proc := none, events := [Ev.stopCalled] } := by
  have h := (stop_server_contract egStop egStop rinit).1 rfl
  simpa [rinit] using h

/-- C7: when the server executable path does not exist, `start_server` fails
with the binary-not-found error before any spawn, and the whole session run
leaves the runner state (process handle and event trace) unchanged. -/
theorem start_server_missing_binary (env : Env) (s : RState)
    (h : env.startEnv.binaryExists = false) :
    start_server env.startEnv s = Except.error StartErr.binaryNotFound ∧
    (run env s).2 = s := by
  have hs : start_server env.startEnv s = Except.error StartErr.binaryNotFound := by
    simp [start_server, h]
  exact ⟨hs, by rw [run_err_eq env s _ hs]⟩

/-- Witness for C7: a concrete configuration with a missing binary. -/
theorem start_server_missing_binary_witness :
    start_server envNoBin.startEnv rinit = Except.error StartErr.binaryNotFound ∧
    (run envNoBin rinit).2 = rinit :=
  start_server_missing_binary envNoBin rinit rfl

/-- C8: in diagnostic mode, a failing `valgrind --version` probe makes
`start_server` fail with the tool-unavailable error before any spawn; and
whenever a diagnostic-mode start succeeds, the spawned command line is the
valgrind wrapper (head `"valgrind"`) — it never silently falls back to a bare
server command. -/
theorem start_server_valgrind_gate (e : StartEnv) (s : RState) :
    (e.binaryExists = true → e.valgrind = true → e.valgrindOk = false →
      start_server e s = Except.error StartErr.valgrindNotAvailable) ∧
    (∀ s2, e.valgrind = true → start_server e s = Except.ok s2 →
      s2.events = s.events ++ [Ev.spawned (start_cmd e)] ∧
      (start_cmd e).head? = some "valgrind") := by
  constructor
  · intro h1 h2 h3
    simp [start_server, h1, h2, h3]
  · intro s2 hv hok
    have hs2 := start_server_ok_shape e s s2 hok
    subst hs2
    exact ⟨rfl, by simp [start_cmd, hv, default_valgrind_cmd]⟩

/-- Witness for C8: the probe failure case and a successful diagnostic start
with the valgrind-wrapped command line, at concrete configurations. -/
theorem start_server_valgrind_gate_witness :
    start_server eVgBad rinit = Except.error StartErr.valgrindNotAvailable ∧
    ({ server_proc := some ()
       events := [Ev.spawned (start_cmd eVgOk)] } : RState).events
      = rinit.events ++ [Ev.spawned (start_cmd eVgOk)] ∧
    (start_cmd eVgOk).head? = some "valgrind" := by
  refine ⟨(start_server_valgrind_gate eVgBad rinit).1 rfl rfl rfl, ?_, ?_⟩
  · exact ((start_server_valgrind_gate eVgOk rinit).2
      { server_proc := some ()
        events := rinit.events ++ [Ev.spawned (start_cmd eVgOk)] } rfl rfl).1
  · exact ((start_server_valgrind_gate eVgOk rinit).2
      { server_proc := some ()
        events := rinit.events ++ [Ev.spawned (start_cmd eVgOk)] } rfl rfl).2

/-- C1 counterexample: on a start exception (missing binary at a concrete
configuration) the orchestrator returns the non-zero outcome 2 WITHOUT calling
stop — no stop invocation appears in the trace — refuting the claim that stop
is unconditionally called before aborting on a start exception. -/
theorem run_start_exception_no_stop :
    (run envNoBin rinit).1 = Except.ok 2 ∧
    Ev.stopCalled ∉ (run envNoBin rinit).2.events := by
  have h : run envNoBin rinit = (Except.ok 2, rinit) := rfl
  rw [h]
  simp [rinit]

/-- C1 amended: for every session from a fresh runner state, the final state
has no live process handle; whenever a handle was created (successful start),
stop is invoked — both on a false readiness result and, via the
guaranteed-execution block, after the client step whether or not it raised;
and on a start exception the run returns with the state untouched, in which
no handle was ever created (the handle is only assigned on a successful
spawn), so the server never outlives the session. -/
theorem run_stop_guarantee (env : Env) (s : RState)
    (h : s.server_proc = none) :
    (run env s).2.server_proc = none ∧
    (∀ s1, start_server env.startEnv s = Except.ok s1 →
      Ev.stopCalled ∈ (run env s).2.events) ∧
    (∀ e, start_server env.startEnv s = Except.error e →
      (run env s).2 = s) := by
  cases hst : start_server env.startEnv s with
  | error e =>
    rw [run_err_eq env s e hst]
    exact ⟨h, fun s1 h1 => Except.noConfusion h1, fun _ _ => rfl⟩
  | ok s1 =>
    rw [run_ok_eq env s s1 hst]
    by_cases hl : listen_ok env
    · simp only [hl, Bool.not_true, Bool.false_eq_true, if_false]
      cases hsum : summary_step env with
      | error e =>
        exact ⟨stop_server_proc _ _, fun _ _ => stop_server_called _ _,
          fun e2 he => Except.noConfusion he⟩
      | ok u =>
        exact ⟨stop_server_proc _ _, fun _ _ => stop_server_called _ _,
          fun e2 he => Except.noConfusion he⟩
    · rw [Bool.not_eq_true] at hl
      simp only [hl, Bool.not_false, if_true]
      exact ⟨stop_server_proc _ _, fun _ _ => stop_server_called _ _,
        fun e he => Except.noConfusion he⟩

/-- Witness for the amended C1 at a concrete session that starts, becomes
ready and runs the tester: the final state has no live handle and stop was
invoked. -/
theorem run_stop_guarantee_witness :
    (run egEnv rinit).2.server_proc = none ∧
    Ev.stopCalled ∈ (run egEnv rinit).2.events := by
  have h := run_stop_guarantee egEnv rinit rfl
  exact ⟨h.1, h.2.1 { server_proc := some ()
                      events := rinit.events ++ [Ev.spawned (start_cmd egStart)] } rfl⟩

/-- C2 counterexample: a session in valgrind mode whose per-run log carries a
thousands-separated leak count.  The server starts, becomes ready and the
client exits 0, yet the session exit code is not 0: the diagnostic parse
raises `ValueError`, which escapes `run`, and the orchestrator process exits
1 via the catch-all in `main` — refuting "exit code 0 exactly when the client
exited 0". -/
theorem run_exit_code_zero_cex :
    run_tester envVgComma = Except.ok 0 ∧
    session_rc envVgComma = 0 ∧
    (run envVgComma rinit).1
      = Except.error "ValueError: invalid literal for int" ∧
    main_exit envVgComma rinit = 1 := by
  have hst : start_server envVgComma.startEnv rinit = Except.ok
      { server_proc := some ()
        events := rinit.events ++ [Ev.spawned (start_cmd eVgOk)] } := rfl
  have hl : listen_ok envVgComma = true := by
    show (wait_for_listen_aux envVgComma.connectOk envVgComma.failCost
      (envVgComma.startTime + envVgComma.timeout) envVgComma.startTime).1 = true
    rw [wait_aux_unfold]
    norm_num [envVgComma, egEnv]
  have hsum : summary_step envVgComma
      = Except.error "ValueError: invalid literal for int" := rfl
  refine ⟨rfl, rfl, ?_, ?_⟩
  · rw [run_ok_eq envVgComma rinit _ hst]
    simp [hl, hsum]
  · unfold main_exit
    rw [run_ok_eq envVgComma rinit _ hst]
    simp [hl, hsum]

/-- C2 amended: when the diagnostic-summary step does not raise, the session
exit code is 0 exactly when the client ran and exited 0, 2 exactly when the
server failed to start or never reached readiness within the configured
timeout, and 1 exactly in the remaining case (client exited non-zero or
raised).  When the summary parse raises after a completed session, the
exception escapes `run` and the orchestrator process exits 1 via the handlers
in `main`, regardless of the client's exit code. -/
theorem run_exit_codes (env : Env) (s : RState) :
    ((run env s).1 = Except.ok 0 ↔
      (isOkE (start_server env.startEnv s) = true ∧ listen_ok env = true ∧
        isOkE (summary_step env) = true ∧ run_tester env = Except.ok 0)) ∧
    ((run env s).1 = Except.ok 2 ↔
      (isOkE (start_server env.startEnv s) = false ∨ listen_ok env = false)) ∧
    ((run env s).1 = Except.ok 1 ↔
      (isOkE (start_server env.startEnv s) = true ∧ listen_ok env = true ∧
        isOkE (summary_step env) = true ∧ run_tester env ≠ Except.ok 0)) ∧
    (∀ e, (run env s).1 = Except.error e → main_exit env s = 1) ∧
    (isOkE (start_server env.startEnv s) = true → listen_ok env = true →
      isOkE (summary_step env) = false → main_exit env s = 1) := by
  cases hst : start_server env.startEnv s with
  | error e =>
    have hrun := run_err_eq env s e hst
    rw [hrun]
    unfold main_exit
    rw [hrun]
    simp [isOkE]
  | ok s1 =>
    have hrun := run_ok_eq env s s1 hst
    rw [hrun]
    unfold main_exit
    rw [hrun]
    by_cases hl : listen_ok env
    · simp only [hl, Bool.not_true, Bool.false_eq_true, if_false, isOkE]
      cases hsum : summary_step env with
      | error e2 => simp
      | ok u =>
        simp only []
        cases hrt : run_tester env with
        | ok rc =>
          by_cases hrc : rc = 0
          · subst hrc
            simp [session_rc, hrt]
          · simp [session_rc, hrt, hrc]
        | error u2 =>
          have hrc : session_rc env = 99 := by simp [session_rc, hrt]
          simp [hrc]
    · rw [Bool.not_eq_true] at hl
      simp [hl, isOkE]

/-- Witness for the amended C2 at a concrete successful session without
diagnostics: client exited 0 and the summary step cannot raise, so the
session exit code is 0. -/
theorem run_exit_codes_witness : (run egEnv rinit).1 = Except.ok 0 := by
  refine ((run_exit_codes egEnv rinit).1).mpr ⟨rfl, ?_, rfl, rfl⟩
  show (wait_for_listen_aux egEnv.connectOk egEnv.failCost
    (egEnv.startTime + egEnv.timeout) egEnv.startTime).1 = true
  rw [wait_aux_unfold]
  norm_num [egEnv]

/-- C10: when the server starts and becomes ready but the selected tester
script does not exist, the raised exception is caught inside the session: the
recorded client exit code is the sentinel 99, stop is still invoked (the
guaranteed-execution block) leaving no live handle, and the orchestrator
process exits with code 1 — `run` returns 1 whenever its summary step does
not raise, and `main` turns an escaping summary exception into exit 1 as
well — the same code as a client-reported failure, not a distinct
setup-failure code. -/
theorem run_missing_tester (env : Env) (s : RState)
    (h1 : isOkE (start_server env.startEnv s) = true)
    (h2 : listen_ok env = true)
    (h3 : env.testerExists = false) :
    session_rc env = 99 ∧
    main_exit env s = 1 ∧
    (isOkE (summary_step env) = true → (run env s).1 = Except.ok 1) ∧
    Ev.stopCalled ∈ (run env s).2.events ∧
    (run env s).2.server_proc = none := by
  have hrc : session_rc env = 99 := by
    simp [session_rc, run_tester, h3]
  cases hst : start_server env.startEnv s with
  | error e =>
    rw [hst] at h1
    simp [isOkE] at h1
  | ok s1 =>
    have hrun := run_ok_eq env s s1 hst
    rw [hrun]
    unfold main_exit
    rw [hrun]
    simp only [h2, Bool.not_true, Bool.false_eq_true, if_false]
    cases hsum : summary_step env with
    | error e2 =>
      exact ⟨hrc, rfl, fun h => by simp [isOkE] at h,
        stop_server_called _ _, stop_server_proc _ _⟩
    | ok u =>
      refine ⟨hrc, ?_, fun _ => ?_, stop_server_called _ _,
        stop_server_proc _ _⟩
      · simp [hrc]
      · simp [hrc]

/-- Witness for C10 at a concrete configuration with a missing tester
script. -/
theorem run_missing_tester_witness :
    session_rc envNoTester = 99 ∧
    main_exit envNoTester rinit = 1 ∧
    (isOkE (summary_step envNoTester) = true →
      (run envNoTester rinit).1 = Except.ok 1) ∧
    Ev.stopCalled ∈ (run envNoTester rinit).2.events ∧
    (run envNoTester rinit).2.server_proc = none := by
  refine run_missing_tester envNoTester rinit rfl ?_ rfl
  show (wait_for_listen_aux envNoTester.connectOk envNoTester.failCost
    (envNoTester.startTime + envNoTester.timeout) envNoTester.startTime).1 = true
  rw [wait_aux_unfold]
  norm_num [envNoTester, egEnv]

/-! ### Order facts about the fallback-scan sort -/

theorem lexLt_irrefl : ∀ a : List Char, lexLt a a = false := by
  intro a
  induction a with
  | nil => rfl
  | cons c cs ih => simp [lexLt, ih, lt_irrefl]

theorem lexLt_asymm : ∀ a b : List Char, lexLt a b = true → lexLt b a = false := by
  intro a
  induction a with
  | nil =>
    intro b h
    cases b with
    | nil => simp [lexLt] at h
    | cons d ds => simp [lexLt]
  | cons c cs ih =>
    intro b h
    cases b with
    | nil => simp [lexLt] at h
    | cons d ds =>
      simp only [lexLt] at h ⊢
      by_cases hcd : c < d
      · have hdc : ¬ d < c := lt_asymm hcd
        simp [hcd, hdc]
      · by_cases hdc : d < c
        · simp [hcd, hdc] at h
        · simp only [hcd, hdc, if_false] at h ⊢
          exact ih ds h

/-- Transitivity of the non-strict order induced by `lexLt`. -/
theorem lexLt_le_trans : ∀ a b c : List Char,
    lexLt b a = false → lexLt c b = false → lexLt c a = false := by
  intro a
  induction a with
  | nil =>
    intro b c _ _
    cases c <;> simp [lexLt]
  | cons x xs ih =>
    intro b c h1 h2
    cases b with
    | nil => simp [lexLt] at h1
    | cons y ys =>
      cases c with
      | nil => simp [lexLt] at h2
      | cons z zs =>
        simp only [lexLt] at h1 h2 ⊢
        by_cases hyx : y < x
        · simp [hyx] at h1
        · by_cases hzy : z < y
          · simp [hzy] at h2
          · by_cases hxy : x < y
            · have hxz : x < z := lt_of_lt_of_le hxy (not_lt.mp hzy)
              have hzx : ¬ z < x := lt_asymm hxz
              simp [hzx, hxz]
            · have hxy2 : x = y := le_antisymm (not_lt.mp hyx) (not_lt.mp hxy)
              subst hxy2
              simp only [lt_irrefl, if_false] at h1
              by_cases hxz : x < z
              · simp [hzy, hxz]
              · simp only [hzy, hxz, if_false] at h2 ⊢
                exact ih ys zs h1 h2

theorem mem_insSorted (x z : String) :
    ∀ l, z ∈ insSorted x l ↔ (z = x ∨ z ∈ l) := by
  intro l
  induction l with
  | nil => simp [insSorted]
  | cons y ys ih =>
    by_cases h : lexLt y.data x.data = true
    · simp [insSorted, h, ih]
      try tauto
    · rw [Bool.not_eq_true] at h
      simp [insSorted, h]
      try tauto

theorem mem_sortNames (z : String) : ∀ l, z ∈ sortNames l ↔ z ∈ l := by
  intro l
  induction l with
  | nil => simp [sortNames]
  | cons x xs ih => simp [sortNames, mem_insSorted, ih]

theorem pairwise_insSorted (x : String) :
    ∀ l, List.Pairwise (fun a b => lexLt b.data a.data = false) l →
      List.Pairwise (fun a b => lexLt b.data a.data = false) (insSorted x l) := by
  intro l
  induction l with
  | nil =>
    intro _
    simp [insSorted]
  | cons y ys ih =>
    intro hp
    rw [List.pairwise_cons] at hp
    obtain ⟨hy, hys⟩ := hp
    by_cases h : lexLt y.data x.data = true
    · simp only [insSorted, h, if_true]
      rw [List.pairwise_cons]
      refine ⟨?_, ih hys⟩
      intro z hz
      rcases (mem_insSorted x z ys).mp hz with rfl | hz
      · exact lexLt_asymm _ _ h
      · exact hy z hz
    · rw [Bool.not_eq_true] at h
      simp only [insSorted, h, Bool.false_eq_true, if_false]
      rw [List.pairwise_cons]
      refine ⟨?_, List.pairwise_cons.mpr ⟨hy, hys⟩⟩
      intro z hz
      rcases List.mem_cons.mp hz with rfl | hz
      · exact h
      · exact lexLt_le_trans x.data y.data z.data h (hy z hz)

theorem pairwise_sortNames :
    ∀ l, List.Pairwise (fun a b => lexLt b.data a.data = false) (sortNames l) := by
  intro l
  induction l with
  | nil => simp [sortNames]
  | cons x xs ih => exact pairwise_insSorted x _ ih

/-- C9: report resolution priority.  When diagnostics were not requested the
result is `none` with nothing attempted; when the expected per-run log exists
it is parsed; otherwise the fallback directory is scanned for names matching
the diagnostic-log convention and the first name in sorted order is parsed —
that name matches the convention and no other matching name sorts strictly
below it; when nothing matches, the result is `none` rather than a failure. -/
theorem summarize_valgrind_resolution (vg : Bool) (lf : Option String) (fs : FS) :
    (vg = false → summarize_valgrind vg lf fs = none) ∧
    (∀ f, vg = true → lf = some f → fsExists fs f = true →
      summarize_valgrind vg lf fs = some (parse_valgrind_log (fsRead fs f))) ∧
    (vg = true → (∀ f, lf = some f → fsExists fs f = false) →
      vgCandidates fs = [] → summarize_valgrind vg lf fs = none) ∧
    (∀ n ns, vg = true → (∀ f, lf = some f → fsExists fs f = false) →
      vgCandidates fs = n :: ns →
      summarize_valgrind vg lf fs = some (parse_valgrind_log (fsRead fs n)) ∧
      vgGlobMatch n = true ∧
      ∀ m, m ∈ (fs.files.map Prod.fst).filter vgGlobMatch →
        lexLt m.data n.data = false) := by
  refine ⟨?_, ?_, ?_, ?_⟩
  · intro h
    simp [summarize_valgrind, h]
  · intro f hv hlf hex
    subst hv
    subst hlf
    simp [summarize_valgrind, hex]
  · intro hv hmiss hc
    subst hv
    cases hlf : lf with
    | none => simp [summarize_valgrind, hc]
    | some f =>
      have hex := hmiss f hlf
      simp [summarize_valgrind, hex, hc]
  · intro n ns hv hmiss hc
    have hmem : n ∈ (fs.files.map Prod.fst).filter vgGlobMatch := by
      have : n ∈ sortNames ((fs.files.map Prod.fst).filter vgGlobMatch) := by
        unfold vgCandidates at hc
        rw [hc]
        exact List.mem_cons_self n ns
      exact (mem_sortNames n _).mp this
    have hglob : vgGlobMatch n = true := (List.mem_filter.mp hmem).2
    have hmin : ∀ m, m ∈ (fs.files.map Prod.fst).filter vgGlobMatch →
        lexLt m.data n.data = false := by
      intro m hm
      have hpw := pairwise_sortNames ((fs.files.map Prod.fst).filter vgGlobMatch)
      unfold vgCandidates at hc
      rw [hc] at hpw
      rw [List.pairwise_cons] at hpw
      have hm2 : m ∈ n :: ns := by
        rw [← hc]
        exact (mem_sortNames m _).mpr hm
      rcases List.mem_cons.mp hm2 with rfl | hm3
      · exact lexLt_irrefl _
      · exact hpw.1 m hm3
    subst hv
    refine ⟨?_, hglob, hmin⟩
    cases hlf : lf with
    | none => simp [summarize_valgrind, hc]
    | some f =>
      have hex := hmiss f hlf
      simp [summarize_valgrind, hex, hc]

/-- Witness for C9: at a concrete output directory with two matching log
names and no expected path, the sorted-first candidate is parsed. -/
theorem summarize_valgrind_resolution_witness :
    summarize_valgrind true none
        ⟨[("valgrind.2.log", "ERROR SUMMARY: 3 errors"), ("server.log", "x"),
          ("valgrind.1.log", "definitely lost: 8 bytes")]⟩
      = some (parse_valgrind_log
          (fsRead ⟨[("valgrind.2.log", "ERROR SUMMARY: 3 errors"),
                    ("server.log", "x"),
                    ("valgrind.1.log", "definitely lost: 8 bytes")]⟩
            "valgrind.1.log")) ∧
    vgGlobMatch "valgrind.1.log" = true := by
  have h := (summarize_valgrind_resolution true none
      ⟨[("valgrind.2.log", "ERROR SUMMARY: 3 errors"), ("server.log", "x"),
        ("valgrind.1.log", "definitely lost: 8 bytes")]⟩).2.2.2
    "valgrind.1.log" ["valgrind.2.log"] rfl
    (fun f hf => Option.noConfusion hf) rfl
  exact ⟨h.1, h.2.1⟩

end IrcRunner
